import Mathlib

/-!
Verification development for the cake-fair drink/store discovery service.

Shallow embedding of the two core components:
  * the resource lifecycle container (`src/api/app/driver/base.py`,
    class `DriverContainer`), and
  * the geospatial/text two-phase query engine
    (`src/api/app/driver/mongo.py`, class `MongoDriver`).

Modelling conventions:
  * Python dictionaries become association lists (`Doc`) over a primitive
    value type `DVal`.  Nested subdocuments that are only ever addressed by
    a dotted path (e.g. `rating.value`) are represented by their dotted
    path as a flat key, matching how the code's MongoDB filters address
    them.
  * MongoDB itself is an external collaborator; the semantics of the
    aggregation stages the code builds ($geoNear, $match, $project,
    $group, $addFields, $sort, $limit) are modelled by executable
    evaluators, with geodesic distance, $text matching, case-insensitive
    regex matching and text score supplied by an environment record
    (`MongoEnv`), since those live inside the database server.
  * Python's stable `list.sort(key=..., reverse=True)` is modelled by
    `List.insertionSort` over the relation "key of the left element is
    greater than or equal to key of the right element": insertion sort is
    stable, and a stable sort w.r.t. a total preorder is unique, so this
    is extensionally the Python sort.
  * `d[k]` (which raises `KeyError` when absent) is modelled by
    `Doc.getBang`, which returns `DVal.null` when the key is absent; all
    places where it is used are places where the key is present on the
    documents the code actually handles.
-/

set_option maxHeartbeats 1000000

namespace CakeFair

/-- Primitive MongoDB/Python value occurring in the documents the claims
are about: strings, numbers (modelled as rationals), booleans and null. -/
inductive DVal where
  | s (v : String)
  | q (v : ℚ)
  | b (v : Bool)
  | null
deriving DecidableEq, Repr

/-- A document / Python dict: an association list with unique keys kept in
insertion order. -/
abbrev Doc := List (String × DVal)

namespace Doc

/-- Python `d.get(k)` / MongoDB field access: first binding of `k`. -/
def get : Doc → String → Option DVal
  | [], _ => none
  | (k1, v) :: rest, k => if k1 = k then some v else get rest k

/-- Python `d.get(k, default)`. -/
def getD (d : Doc) (k : String) (dflt : DVal) : DVal := (d.get k).getD dflt

/-- Python `d[k]`; total stand-in returning `null` where Python would
raise `KeyError` (the claims only exercise it on present keys). -/
def getBang (d : Doc) (k : String) : DVal := d.getD k .null

/-- Python `d[k] = v`: update in place if the key exists, else append. -/
def set : Doc → String → DVal → Doc
  | [], k, v => [(k, v)]
  | (k1, v1) :: rest, k, v =>
      if k1 = k then (k, v) :: rest else (k1, v1) :: set rest k v

/-- Python `d.pop(k, ...)` restricted to its effect on the dict: remove
the first binding of `k`. -/
def pop : Doc → String → Doc
  | [], _ => []
  | (k1, v1) :: rest, k => if k1 = k then rest else (k1, v1) :: pop rest k

end Doc

/-- Generic association map with overwrite-on-insert, used for the Python
dicts whose keys are not strings (the join indexes). -/
def assocSet {κ α : Type} [DecidableEq κ] :
    List (κ × α) → κ → α → List (κ × α)
  | [], k, v => [(k, v)]
  | (k1, v1) :: rest, k, v =>
      if k1 = k then (k, v) :: rest else (k1, v1) :: assocSet rest k v

/-- Lookup in an association map. -/
def assocGet {κ α : Type} [DecidableEq κ] : List (κ × α) → κ → Option α
  | [], _ => none
  | (k1, v) :: rest, k => if k1 = k then some v else assocGet rest k

/-! ## Query parameters and database environment -/

/-- Python truthiness of an `str | None` value: `None` and `""` are falsy.
The source guards platform handling with `if platform:`. -/
def truthyStr : Option String → Bool
  | none => false
  | some s => !s.isEmpty

/-- Python truthiness of an `int | None` value: `None` and `0` are falsy.
The source guards the limit stage with `if limit:`. -/
def truthyNat : Option ℕ → Bool
  | none => false
  | some n => n ≠ 0

/-- Query-engine inputs shared by `find_drinks` and
`find_drink_stores_with_menu` (mongo.py).  `drink_tags` and `brands`
collapse `None` and `[]`, which the source treats identically (it only
tests them for truthiness). -/
structure QueryParams where
  longitude : ℚ
  latitude : ℚ
  drink_tags : List String := []
  brands : List String := []
  review_count_range : Option (ℚ × ℚ) := none
  rating_range : Option (ℚ × ℚ) := none
  distance_range : Option (ℚ × ℚ) := none
  platform : Option String := none

/-- Behaviour of the pieces of MongoDB query evaluation that live inside
the database server: geodesic distance to the query point, `$text`
matching, `$text` relevance score, and case-insensitive `$regex`
matching.  The engine's claims hold for every such environment. -/
structure MongoEnv where
  dist : ℚ → ℚ → Doc → ℚ
  textMatch : String → Doc → Bool
  textScore : String → Doc → ℚ
  regexMatch : String → String → Bool

/-! ## Pipeline building blocks (mongo.py)

Each builder below embeds the corresponding `MongoDriver` helper; the
`$match` builders are embedded directly as the predicate the produced
filter document denotes under MongoDB's query semantics. -/

/-- Embeds `MongoDriver._build_geospatial_filter` (mongo.py:466-487): a
`$geoNear` stage whose `maxDistance` is `radius_km * 1000` meters. -/
structure GeoFilter where
  longitude : ℚ
  latitude : ℚ
  maxDistance : ℚ

/-- Builds the `$geoNear` stage exactly as the source does:
`maxDistance` is the supplied radius (interpreted as kilometers)
multiplied by 1000 to obtain meters. -/
def buildGeospatialFilter (longitude latitude radius_km : ℚ) : GeoFilter :=
  { longitude := longitude, latitude := latitude, maxDistance := radius_km * 1000 }

/-- Embeds the expression `5.0 if not distance_range else distance_range[1]`
(mongo.py:653, 722, 1077): the radius passed to the geospatial filter
defaults to 5, otherwise it is the raw upper bound of `distance_range`
(which the docstrings document as meters) with no unit conversion. -/
def effectiveRadiusKm (distance_range : Option (ℚ × ℚ)) : ℚ :=
  match distance_range with
  | none => 5
  | some r => r.2

/-- Numeric `{$gte: lo, $lte: hi}` match on one field: the document's
value must be a number inside the closed interval; a missing or
non-numeric field does not match. -/
def numInRange (v : Option DVal) (lo hi : ℚ) : Bool :=
  match v with
  | some (.q x) => lo ≤ x && x ≤ hi
  | _ => false

/-- Embeds `MongoDriver._build_store_filters` (mongo.py:503-533) as the
predicate the produced filter denotes: platform equality plus rating /
review-count range filters; with no filters the source returns the
tautology `{"$expr": True}`, here `true`. -/
def matchesStoreFilters (platform : Option String)
    (rating_range review_count_range : Option (ℚ × ℚ)) (d : Doc) : Bool :=
  (if truthyStr platform then d.get "platform" == some (.s (platform.getD "")) else true) &&
  (match rating_range with
   | some r => numInRange (d.get "rating.value") r.1 r.2
   | none => true) &&
  (match review_count_range with
   | some r => numInRange (d.get "rating.review_count") r.1 r.2
   | none => true)

/-- Embeds `MongoDriver._build_drink_tags_filter` (mongo.py:535-549) as a
predicate: tags are joined by single spaces into one `$text` search
string; without tags the source returns the tautology filter. -/
def matchesDrinkTags (env : MongoEnv) (drink_tags : List String) (d : Doc) : Bool :=
  if drink_tags.isEmpty then true
  else env.textMatch (String.intercalate " " drink_tags) d

/-- Predicate form of the brand stage
`{"$or": [{"name": {"$regex": brand, "$options": "i"}} for brand in brands]}`
(mongo.py:668-681, 733-747, 1090-1103). -/
def matchesBrandOr (env : MongoEnv) (brands : List String) (d : Doc) : Bool :=
  brands.any fun b =>
    match d.get "name" with
    | some (.s n) => env.regexMatch b n
    | _ => false

/-- Predicate form of the store-restriction stage
`{"$match": {"$or": store_conditions}}` where every condition is an
equality match `{"store_id": v}`; a missing field is treated like `null`
per MongoDB equality-match semantics. -/
def matchesStoreIdOr (conds : List DVal) (d : Doc) : Bool :=
  conds.any fun v => d.getBang "store_id" == v

/-- Predicate form of `{"$match": {"price": {"$gte": 20}}}`
(mongo.py:1149). -/
def matchesPriceGte20 (d : Doc) : Bool :=
  match d.get "price" with
  | some (.q p) => 20 ≤ p
  | _ => false

/-- Inclusion `$project`: keeps exactly the listed keys (in the listed
order), omitting keys the input document lacks. -/
def projectKeys (ks : List String) (d : Doc) : Doc :=
  ks.filterMap fun k => (d.get k).map fun v => (k, v)

/-! ## Sorting

`List.insertionSort` models both Python's stable `list.sort` with
`reverse=True` and MongoDB's `$sort`; the relation compares the sort key
of the left element as greater than or equal to that of the right, so
the output is non-increasing in the key, with ties keeping their
original order, exactly as a stable descending sort. -/

/-- Stable descending sort by a rational-valued key. -/
def sortDescBy {α : Type} (key : α → ℚ) (l : List α) : List α :=
  l.insertionSort fun a b => key b ≤ key a

/-- Sort key used for `$sort` on the text score and for the final Python
sort `result.sort(key=lambda x: x["text_score"], reverse=True)`
(mongo.py:933, 1181, 1212); documents sorted this way always carry the
field. -/
def textScoreKey (d : Doc) : ℚ :=
  match d.get "text_score" with
  | some (.q v) => v
  | _ => 0

/-! ## Pipeline evaluation -/

/-- Evaluates a `$geoNear` stage over a collection: keep the documents
within `maxDistance` meters of the query point, order them by ascending
distance, and annotate each with the `distance_in_meter` field. -/
def evalGeoNear (env : MongoEnv) (gf : GeoFilter) (coll : List Doc) : List Doc :=
  ((coll.filter fun d => env.dist gf.longitude gf.latitude d ≤ gf.maxDistance)
      |>.insertionSort fun a b =>
        env.dist gf.longitude gf.latitude a ≤ env.dist gf.longitude gf.latitude b)
    |>.map fun d => d.set "distance_in_meter" (.q (env.dist gf.longitude gf.latitude d))

/-- MongoDB `$round` to two decimal places, used for `distance_in_km`. -/
def round2 (x : ℚ) : ℚ := (round (x * 100) : ℤ) / 100

/-- The computed projection entry
`"distance_in_km": {"$round": [{"$divide": ["$distance_in_meter", 1000]}, 2]}`. -/
def distanceInKmEntry (d : Doc) : DVal :=
  match d.get "distance_in_meter" with
  | some (.q m) => .q (round2 (m / 1000))
  | _ => .null

/-- Embeds the `$project` stage of `MongoDriver._find_qualifying_stores`
(mongo.py:1104-1122); note it emits the singular `platform` key and no
`platforms` key. -/
def projectQualifyingStore (d : Doc) : Doc :=
  projectKeys
    ["store_id", "name", "brand", "address", "platform", "rating",
     "review_count", "cuisines", "source_url", "distance_in_meter"] d
    ++ [("distance_in_km", distanceInKmEntry d)]

/-- Embeds `MongoDriver._find_qualifying_stores` (mongo.py:1063-1124):
geo stage with the effective radius, store attribute filters, optional
brand filter, output projection; the whole pipeline is one aggregation
against the `store` collection. -/
def findQualifyingStores (env : MongoEnv) (p : QueryParams)
    (storeColl : List Doc) : List Doc :=
  let gf := buildGeospatialFilter p.longitude p.latitude
    (effectiveRadiusKm p.distance_range)
  let l := evalGeoNear env gf storeColl
  let l := l.filter (matchesStoreFilters p.platform p.rating_range p.review_count_range)
  let l := if p.brands.isEmpty then l else l.filter (matchesBrandOr env p.brands)
  l.map projectQualifyingStore

/-- Embeds the `$project` stage of `MongoDriver._find_drinks_from_stores`
(mongo.py:1159-1176); `text_score` is included only when drink tags were
given, and the stage asks for a `platforms` key the menu documents do
not have. -/
def projectDrinkItem (hasTags : Bool) (d : Doc) : Doc :=
  projectKeys
    (["item_id", "name", "description", "price", "image_url", "category",
      "is_popular", "options", "store_id", "platforms"]
      ++ if hasTags then ["text_score"] else []) d

/-- Store index of `MongoDriver._find_drinks_from_stores`
(mongo.py:1190-1194): a dict keyed by
`(store["store_id"], store.get("platforms"))`; later stores overwrite
earlier ones with the same key. -/
def buildStoreIndex (stores : List Doc) : List ((DVal × Option DVal) × Doc) :=
  stores.foldl
    (fun idx st => assocSet idx (st.getBang "store_id", st.get "platforms") st) []

/-- Per-item join step of `MongoDriver._find_drinks_from_stores`
(mongo.py:1203-1211): re-set `store_id` and `platform` on the item (via
`pop` with a default from the store) and attach the store's display
fields. -/
def attachStore (st : Doc) (item : Doc) : Doc :=
  let sid := item.getD "store_id" (st.getBang "store_id")
  let item := (item.pop "store_id").set "store_id" sid
  let plat := item.getD "platform" (st.getD "platform" .null)
  let item := (item.pop "platform").set "platform" plat
  let item := item.set "store_name" (st.getD "name" .null)
  let item := item.set "store_url" (st.getD "source_url" .null)
  item.set "brand_name" (st.getD "brand" .null)

/-- Join loop of `MongoDriver._find_drinks_from_stores`
(mongo.py:1197-1211): for each menu item look up
`(item["store_id"], item.get("platforms"))` in the store index; items
with no store are skipped (an empty store dict is also falsy in Python
and would be skipped). -/
def joinDrinkItems (idx : List ((DVal × Option DVal) × Doc))
    (menuItems : List Doc) : List Doc :=
  menuItems.filterMap fun item =>
    match assocGet idx (item.getBang "store_id", item.get "platforms") with
    | some st => if st.isEmpty then none else some (attachStore st item)
    | none => none

/-- Embeds `MongoDriver._find_drinks_from_stores` (mongo.py:1126-1213):
the phase-2 `menu_item` pipeline (optional `$text` stage, the
unconditional `price >= 20` filter, the store-id restriction, score
annotation, projection, score sort, limit) followed by the in-memory
join against the phase-1 stores and the final Python sort. -/
def findDrinksFromStores (env : MongoEnv) (stores : List Doc)
    (drink_tags : List String) (limit : Option ℕ)
    (menuColl : List Doc) : List Doc :=
  let hasTags := !drink_tags.isEmpty
  let conds := stores.map fun s => s.getBang "store_id"
  let l := if hasTags then menuColl.filter (matchesDrinkTags env drink_tags)
           else menuColl
  let l := l.filter matchesPriceGte20
  let l := l.filter (matchesStoreIdOr conds)
  let l := if hasTags then
      l.map fun d =>
        d.set "text_score" (.q (env.textScore (String.intercalate " " drink_tags) d))
    else l
  let l := l.map (projectDrinkItem hasTags)
  let l := if hasTags then sortDescBy textScoreKey l else l
  let l := if truthyNat limit then l.take (limit.getD 0) else l
  let joined := joinDrinkItems (buildStoreIndex stores) l
  if hasTags then sortDescBy textScoreKey joined else joined

/-- Embeds `MongoDriver.find_drinks` (mongo.py:991-1061) together with a
log of the collections it queries, in order: phase 1 queries `store`;
if no store qualifies it short-circuits with `[]`, otherwise phase 2
queries `menu_item`. -/
def findDrinks (env : MongoEnv) (p : QueryParams) (limit : Option ℕ)
    (storeColl menuColl : List Doc) : List Doc × List String :=
  let stores := findQualifyingStores env p storeColl
  if stores.isEmpty then ([], ["store"])
  else (findDrinksFromStores env stores p.drink_tags limit menuColl,
        ["store", "menu_item"])

/-! ## Stores-with-full-menu operation -/

/-- Document emitted for one distinct `(store_id, platforms)` group key
by the phase-1 pipeline of `_find_stores_with_drink_tags`
(mongo.py:625-637): components whose source field is missing are omitted
both by `$group` and by the following `$project`. -/
def pairDoc : Option DVal × Option DVal → Doc := fun pr =>
  (pr.1.map fun v => ("store_id", v)).toList
    ++ (pr.2.map fun v => ("platforms", v)).toList

/-- Embeds the phase-1 `menu_item` pipeline of
`MongoDriver._find_stores_with_drink_tags` (mongo.py:624-640): `$text`
match on the drink tags, optional `{"platforms": platform}` match, then
the distinct set of `(store_id, platforms)` pairs. -/
def menuPairsPhase1 (env : MongoEnv) (drink_tags : List String)
    (platform : Option String) (menuColl : List Doc) : List Doc :=
  let l := menuColl.filter (matchesDrinkTags env drink_tags)
  let l := if truthyStr platform then
      l.filter fun d => d.getBang "platforms" == .s (platform.getD "")
    else l
  ((l.map fun d => (d.get "store_id", d.get "platforms")).dedup).map pairDoc

/-- Match stages of the phase-2 `store` pipeline of
`MongoDriver._find_stores_with_drink_tags` (mongo.py:655-681), before
the output projection: geo stage, store attribute filters, the
`$or` restriction built from `store["store_id"]` of each phase-1 pair
document, and the optional brand filter. -/
def storesPhase2Admitted (env : MongoEnv) (p : QueryParams)
    (pairs : List Doc) (storeColl : List Doc) : List Doc :=
  let conds := pairs.map fun s => s.getBang "store_id"
  let gf := buildGeospatialFilter p.longitude p.latitude
    (effectiveRadiusKm p.distance_range)
  let l := evalGeoNear env gf storeColl
  let l := l.filter (matchesStoreFilters p.platform p.rating_range p.review_count_range)
  let l := l.filter (matchesStoreIdOr conds)
  if p.brands.isEmpty then l else l.filter (matchesBrandOr env p.brands)

/-- Embeds the `$project` stage of the phase-2 `store` pipeline
(mongo.py:682-698). -/
def projectStoreForMenu (d : Doc) : Doc :=
  projectKeys
    ["store_id", "name", "address", "platforms", "rating", "review_count",
     "cuisines", "distance_in_meter"] d
    ++ [("distance_in_km", distanceInKmEntry d)]

/-- Result row of `_join_menu_data`: the store document returned by the
store query, the `menu` list attached to it, and the transient
`hit_count` key (present between its assignment and its `pop`). -/
structure StoreMenuEntry where
  base : Doc
  menu : List Doc
  hit_count : Option ℕ
deriving DecidableEq, Repr

/-- Embeds the `$project` stage of the tag-filtered menu query inside
`_join_menu_data` (mongo.py:918-931). -/
def projectJoinItemTags (d : Doc) : Doc :=
  projectKeys
    ["item_id", "store_id", "name", "category", "description", "price",
     "is_popular", "options", "text_score"] d

/-- Embeds the `$project` stage of the unfiltered menu query inside
`_join_menu_data` (mongo.py:941-953). -/
def projectJoinItemNoTags (d : Doc) : Doc :=
  projectKeys
    ["item_id", "store_id", "name", "category", "description", "price",
     "is_popular", "options"] d

/-- Embeds the `menu_item` aggregation issued by `_join_menu_data`
(mongo.py:906-957): with drink tags it is `$text` match, store
restriction, score annotation, projection, and score sort; without tags
only the store restriction and projection. -/
def joinMenuQueryItems (env : MongoEnv) (stores : List Doc)
    (drink_tags : List String) (menuColl : List Doc) : List Doc :=
  let conds := stores.map fun s => s.getBang "store_id"
  if drink_tags.isEmpty then
    (menuColl.filter (matchesStoreIdOr conds)).map projectJoinItemNoTags
  else
    ((((menuColl.filter (matchesDrinkTags env drink_tags)).filter
          (matchesStoreIdOr conds)).map fun d =>
            d.set "text_score"
              (.q (env.textScore (String.intercalate " " drink_tags) d))).map
        projectJoinItemTags)
      |> sortDescBy textScoreKey

/-- One step of the index-building loop of `_join_menu_data`
(mongo.py:963-969): append the item to its store's bucket and bump that
store's hit count. -/
def menuIndexInsert (idx : List (DVal × (List Doc × ℕ))) (k : DVal)
    (item : Doc) : List (DVal × (List Doc × ℕ)) :=
  match assocGet idx k with
  | some p => assocSet idx k (p.1 ++ [item], p.2 + 1)
  | none => assocSet idx k ([item], 1)

/-- The `menu_index` / `store_hit_counts` tables of `_join_menu_data`,
built by iterating over the returned menu items (mongo.py:959-969). -/
def buildMenuIndex (items : List Doc) : List (DVal × (List Doc × ℕ)) :=
  items.foldl (fun idx it => menuIndexInsert idx (it.getBang "store_id") it) []

/-- Embeds the in-memory part of `MongoDriver._join_menu_data`
(mongo.py:959-989) applied to the queried menu items: attach menus (and,
with tags, hit counts) to every store, then with tags sort by descending
hit count and pop the transient `hit_count` key. -/
def joinMenuAttach (stores : List Doc) (items : List Doc)
    (hasTags : Bool) : List StoreMenuEntry :=
  let idx := buildMenuIndex items
  let result := stores.map fun st =>
    let bucket := assocGet idx (st.getBang "store_id")
    { base := st
      menu := (bucket.map Prod.fst).getD []
      hit_count := if hasTags then some ((bucket.map Prod.snd).getD 0) else none }
  if hasTags then
    (sortDescBy (fun e => ((e.hit_count.getD 0 : ℕ) : ℚ)) result).map
      fun e => { e with hit_count := none }
  else result

/-- Embeds `MongoDriver._join_menu_data` (mongo.py:879-989): issue the
menu query and join in memory; an empty store list short-circuits. -/
def joinMenuData (env : MongoEnv) (stores : List Doc)
    (drink_tags : List String) (menuColl : List Doc) : List StoreMenuEntry :=
  if stores.isEmpty then []
  else joinMenuAttach stores (joinMenuQueryItems env stores drink_tags menuColl)
    (!drink_tags.isEmpty)

/-- Phase-2 store list of `_find_stores_with_drink_tags`: the admitted
stores shaped by the output projection. -/
def storesPhase2Projected (env : MongoEnv) (p : QueryParams)
    (storeColl menuColl : List Doc) : List Doc :=
  (storesPhase2Admitted env p
      (menuPairsPhase1 env p.drink_tags p.platform menuColl) storeColl).map
    projectStoreForMenu

/-- Embeds `MongoDriver._find_stores_with_drink_tags` (mongo.py:610-706):
phase 1 collects the distinct pair documents from `menu_item`
(short-circuiting when empty), phase 2 queries `store` with the
additional store-id restriction, phase 3 joins menus in memory. -/
def findStoresWithDrinkTags (env : MongoEnv) (p : QueryParams)
    (storeColl menuColl : List Doc) : List StoreMenuEntry :=
  let pairs := menuPairsPhase1 env p.drink_tags p.platform menuColl
  if pairs.isEmpty then []
  else
    let stores := storesPhase2Projected env p storeColl menuColl
    if stores.isEmpty then []
    else joinMenuData env stores p.drink_tags menuColl

/-- Number of menu items in `items` whose `store_id` equals the store's:
the hit count the ranking claim is about. -/
def menuHitCount (items : List Doc) (st : Doc) : ℕ :=
  (items.filter fun it => it.getBang "store_id" == st.getBang "store_id").length

/-- Embeds the untagged branch
`MongoDriver._find_stores_without_drink_filter` (mongo.py:708-773). -/
def findStoresWithoutDrinkFilter (env : MongoEnv) (p : QueryParams)
    (storeColl menuColl : List Doc) : List StoreMenuEntry :=
  let gf := buildGeospatialFilter p.longitude p.latitude
    (effectiveRadiusKm p.distance_range)
  let l := evalGeoNear env gf storeColl
  let l := l.filter (matchesStoreFilters p.platform p.rating_range p.review_count_range)
  let l := if p.brands.isEmpty then l else l.filter (matchesBrandOr env p.brands)
  let stores := l.map projectStoreForMenu
  if stores.isEmpty then [] else joinMenuData env stores [] menuColl

/-- Embeds `MongoDriver.find_drink_stores_with_menu` (mongo.py:553-608):
dispatch on whether drink tags were supplied. -/
def findDrinkStoresWithMenu (env : MongoEnv) (p : QueryParams)
    (storeColl menuColl : List Doc) : List StoreMenuEntry :=
  if p.drink_tags.isEmpty then
    findStoresWithoutDrinkFilter env p storeColl menuColl
  else findStoresWithDrinkTags env p storeColl menuColl

/-! ## Resource lifecycle container (base.py, `DriverContainer`)

Driver instances are opaque references, modelled as natural numbers.
`app_state` attributes that hold `None` are treated as absent, matching
the `is not None` guard in `_get_from_app_state`. -/

namespace Container

/-- Attribute names probed on `app.state`, in order, by
`DriverContainer._get_from_app_state` (base.py:199-205). -/
def probeNames (name : String) : List String :=
  [name, name ++ "_driver", "async_" ++ name ++ "_driver", name ++ "_pool"]

/-- Embeds `DriverContainer._get_from_app_state` (base.py:187-216): the
first probed attribute that exists with a non-`None` value. -/
def getFromAppState (appState : List (String × ℕ)) (name : String) : Option ℕ :=
  (probeNames name).findSome? (assocGet appState)

/-- Attribute name used by `DriverContainer._store_to_app_state`
(base.py:228-231). -/
def storeAttr (name : String) : String :=
  if name = "mysql" then name ++ "_pool" else name ++ "_driver"

/-- Embeds `DriverContainer._store_to_app_state` (base.py:218-234). -/
def storeToAppState (appState : List (String × ℕ)) (name : String)
    (v : ℕ) : List (String × ℕ) :=
  assocSet appState (storeAttr name) v

/-- Container state visible to `get_instance`, `cleanup_all` and
`health_check_all`: the registry, the local instance cache, and the
shared `app.state` slots. -/
structure CState where
  drivers : List String
  instances : List (String × ℕ)
  appState : List (String × ℕ)
deriving DecidableEq, Repr

/-- Errors `get_instance` can surface: the `ValueError` for an
unregistered name, or whatever exception `driver.initialize` raised. -/
inductive GetErr where
  | notRegistered
  | initFailed
deriving DecidableEq, Repr

/-- Embeds `DriverContainer.get_instance` (base.py:236-288) as run by a
single caller (no interleaving between the lock acquisition and the
double check): registry check, `app.state` fast path, local cache fast
path, then under the per-name lock the double check and the call to
`driver.initialize`, whose outcome is the parameter `initResult`.
Returns the result, the state afterwards, and whether `initialize` was
invoked. -/
def getInstance (s : CState) (name : String) (initResult : Except Unit ℕ) :
    Except GetErr ℕ × CState × Bool :=
  if name ∈ s.drivers then
    match getFromAppState s.appState name with
    | some v => (.ok v, s, false)
    | none =>
      match assocGet s.instances name with
      | some v => (.ok v, s, false)
      | none =>
        match getFromAppState s.appState name with
        | some v => (.ok v, s, false)
        | none =>
          match assocGet s.instances name with
          | some v => (.ok v, s, false)
          | none =>
            match initResult with
            | .ok v =>
                (.ok v,
                 { s with instances := assocSet s.instances name v,
                          appState := storeToAppState s.appState name v },
                 true)
            | .error _ => (.error .initFailed, s, true)
  else (.error .notRegistered, s, false)

/-- Embeds `DriverContainer.cleanup_all` together with
`_cleanup_instance` (base.py:290-316).  `cleanup` gives each driver
cleanup call's outcome; `_cleanup_instance` swallows a raised exception
after logging it, and `asyncio.gather(..., return_exceptions=True)`
never re-raises, so the whole call returns normally: the `Except` result
is always `ok`.  The returned record lists every cleanup invocation that
was issued (with the outcome it swallowed) and the cache afterwards. -/
structure CleanupReport where
  invocations : List (String × ℕ × Except Unit Unit)
  instancesAfter : List (String × ℕ)
deriving Repr

/-- Cleanup tasks are created for every cached instance whose name is
registered; each runs `_cleanup_instance`, isolated by its own
`try/except`; the cache is cleared afterwards. -/
def cleanupAll (s : CState) (cleanup : String → ℕ → Except Unit Unit) :
    Except Unit CleanupReport :=
  .ok
    { invocations :=
        (s.instances.filter fun p => p.1 ∈ s.drivers).map
          fun p => (p.1, p.2, cleanup p.1 p.2)
      instancesAfter := [] }

/-- Embeds `DriverContainer.health_check_all` (base.py:318-335): one
entry per cached instance with a registered driver; a raised
`health_check` is converted to `false`. -/
def healthCheckAll (s : CState) (hc : String → ℕ → Except Unit Bool) :
    List (String × Bool) :=
  s.instances.filterMap fun p =>
    if p.1 ∈ s.drivers then
      some (p.1, match hc p.1 p.2 with | .ok b => b | .error _ => false)
    else none

/-! ### Concurrent semantics of `get_instance`

`asyncio` runs request handlers cooperatively: code only interleaves at
`await` points.  For N concurrent `get_instance(name)` calls on one
container the relevant await points are the acquisition of the per-name
lock (base.py:262) and the `await driver.initialize(...)`
(base.py:277).  Each task is therefore a small state machine:

  * `start`: the registry check and the two lock-free fast-path reads,
    ending either in `done` (cache hit) or `waiting` (about to acquire
    the lock);
  * `waiting`: enabled only while the lock is free; atomically acquires
    the lock, re-runs the double check, and either releases and finishes
    (hit) or invokes `initialize` and suspends;
  * `initializing v`: `initialize` has been invoked and will return the
    fresh instance `v`; its resumption stores `v` into the local cache
    and `app.state`, releases the lock and finishes.

Allowing a scheduling point between `start` and the lock acquisition is
a superset of real CPython behaviour (an uncontended
`asyncio.Lock.acquire` does not yield), so properties proved for every
schedule of this machine hold for the real interleavings.  `initCount`
counts invocations of `driver.initialize`; `freshCnt` allocates distinct
instance references, so two invocations would yield distinct
instances. -/

namespace Concurrent

/-- Program counter of one `get_instance` caller. -/
inductive PC where
  | start
  | waiting
  | initializing (v : ℕ)
  | done (v : ℕ)
deriving DecidableEq, Repr

/-- Whether a task currently holds the lock inside `initialize`. -/
def PC.isInit : PC → Bool
  | .initializing _ => true
  | _ => false

/-- Global state: the shared container fields, the per-name lock, the
`initialize` invocation count, the fresh-reference allocator, and every
task's program counter. -/
structure Sys where
  name : String
  drivers : List String
  instances : List (String × ℕ)
  appState : List (String × ℕ)
  lock : Bool
  initCount : ℕ
  freshCnt : ℕ
  tasks : List PC
deriving DecidableEq, Repr

/-- Runs the atomic segment of task `i` that is currently enabled; a
blocked task (waiting while the lock is held), a finished task and an
out-of-range index leave the state unchanged. -/
def stepTask (s : Sys) (i : ℕ) : Sys :=
  match s.tasks[i]? with
  | none => s
  | some pc =>
    match pc with
    | .done _ => s
    | .start =>
      if s.name ∈ s.drivers then
        match getFromAppState s.appState s.name with
        | some v => { s with tasks := s.tasks.set i (.done v) }
        | none =>
          match assocGet s.instances s.name with
          | some v => { s with tasks := s.tasks.set i (.done v) }
          | none => { s with tasks := s.tasks.set i .waiting }
      else s
    | .waiting =>
      if s.lock then s
      else
        match getFromAppState s.appState s.name with
        | some v => { s with tasks := s.tasks.set i (.done v) }
        | none =>
          match assocGet s.instances s.name with
          | some v => { s with tasks := s.tasks.set i (.done v) }
          | none =>
              { s with lock := true,
                       initCount := s.initCount + 1,
                       freshCnt := s.freshCnt + 1,
                       tasks := s.tasks.set i (.initializing s.freshCnt) }
    | .initializing v =>
        { s with instances := assocSet s.instances s.name v,
                 appState := storeToAppState s.appState s.name v,
                 lock := false,
                 tasks := s.tasks.set i (.done v) }

/-- Runs a whole schedule (an arbitrary interleaving). -/
def run (s : Sys) : List ℕ → Sys
  | [] => s
  | i :: rest => run (stepTask s i) rest

/-- Initial state for N callers racing on a freshly constructed
container: empty local cache, no instance published in `app.state`, lock
free, no initialization started. -/
def init (name : String) (drivers : List String) (n : ℕ) : Sys :=
  { name := name, drivers := drivers, instances := [], appState := [],
    lock := false, initCount := 0, freshCnt := 0,
    tasks := List.replicate n .start }

/-- The locally cached instance for the contended name. -/
def cacheOf (s : Sys) : Option ℕ := assocGet s.instances s.name

/-- Inductive invariant of the race: the cache and `app.state` slot move
together and are written at most once, a finished task always carries
the cached instance, the lock is held exactly while one task is inside
`initialize`, and the invocation count tracks the lock phase and the
cache. -/
structure Inv (s : Sys) : Prop where
  reg : s.name ∈ s.drivers
  instApp : (s.instances = [] ∧ s.appState = []) ∨
    (∃ v, s.instances = [(s.name, v)] ∧ s.appState = [(storeAttr s.name, v)])
  done_cached : ∀ v, PC.done v ∈ s.tasks → cacheOf s = some v
  lock_count : (s.tasks.filter PC.isInit).length = if s.lock then 1 else 0
  lock_cache : s.lock = true → cacheOf s = none
  count_eq : s.initCount =
    (if s.lock then 1 else 0) + (if (cacheOf s).isSome then 1 else 0)

end Concurrent

end Container

/-! ## Formalised spec sentences

`c6ClaimHolds` renders the spec's phase-2 restriction sentence ("phase 2
runs the geo+attribute+brand pipeline against `store`, additionally
restricted to that pair set") literally: every admitted store's
`(store_id, platform)` pair equals the `(store_id, platforms)` pair of
one of the records collected by phase 1. -/
def c6ClaimHolds (env : MongoEnv) (p : QueryParams)
    (storeColl menuColl : List Doc) : Prop :=
  ∀ d ∈ storesPhase2Admitted env p
      (menuPairsPhase1 env p.drink_tags p.platform menuColl) storeColl,
    ∃ pr ∈ menuPairsPhase1 env p.drink_tags p.platform menuColl,
      pr.get "store_id" = d.get "store_id" ∧ pr.get "platforms" = d.get "platform"

/-! ## Concrete scenario inputs

Concrete database contents and environments used to evaluate the
embedding at specific inputs.  The document shapes follow the
repository's own collection schemas (`src/api/app/schema/db.py`):
`StoreDoc` and `MenuItemDoc` both carry a singular `platform` string
field (and no `platforms` field). -/

/-- Degenerate database environment: everything is at distance 0, every
document matches every text search with score 0, every regex matches. -/
def envW : MongoEnv :=
  { dist := fun _ _ _ => 0
    textMatch := fun _ _ => true
    textScore := fun _ _ => 0
    regexMatch := fun _ _ => true }

/-- Query with no filters at all, centred at the origin. -/
def pPlain : QueryParams := { longitude := 0, latitude := 0 }

/-- Query searching for the tag "tea" with no other filters. -/
def pTea : QueryParams := { longitude := 0, latitude := 0, drink_tags := ["tea"] }

/-- Store `s1` on ubereats. -/
def stUB : Doc :=
  [("store_id", .s "s1"), ("platform", .s "ubereats"), ("name", .s "UB Store"),
   ("brand", .s "UB"), ("address", .s "addr-ub"), ("source_url", .s "ub-url")]

/-- Store with the same `store_id` `s1` but on foodpanda. -/
def stFP : Doc :=
  [("store_id", .s "s1"), ("platform", .s "foodpanda"), ("name", .s "FP Store"),
   ("brand", .s "FP"), ("address", .s "addr-fp"), ("source_url", .s "fp-url")]

/-- Menu item of store `s1` on ubereats. -/
def itemUB : Doc :=
  [("item_id", .s "m0"), ("store_id", .s "s1"), ("platform", .s "ubereats"),
   ("name", .s "tea"), ("category", .s "drink"), ("price", .q 30)]

/-- Menu item referencing store id `s1` on foodpanda: its
`(store_id, platform)` pair matches no ubereats-only store set. -/
def itemFP : Doc :=
  [("item_id", .s "m1"), ("store_id", .s "s1"), ("platform", .s "foodpanda"),
   ("name", .s "tea"), ("category", .s "drink"), ("price", .q 30)]

/-- Stores for the ranking scenario: store `B` listed before store `A`. -/
def stA : Doc :=
  [("store_id", .s "A"), ("platform", .s "ubereats"), ("name", .s "Store A"),
   ("brand", .s "A"), ("address", .s "addr-a"), ("source_url", .s "a-url")]

/-- Second store of the ranking scenario. -/
def stB : Doc :=
  [("store_id", .s "B"), ("platform", .s "ubereats"), ("name", .s "Store B"),
   ("brand", .s "B"), ("address", .s "addr-b"), ("source_url", .s "b-url")]

/-- Menu items for the ranking scenario: two matching items for store
`A`, one for store `B`. -/
def menuRank : List Doc :=
  [[("item_id", .s "a1"), ("store_id", .s "A"), ("platform", .s "ubereats"),
    ("name", .s "black tea"), ("category", .s "drink"), ("price", .q 30)],
   [("item_id", .s "b1"), ("store_id", .s "B"), ("platform", .s "ubereats"),
    ("name", .s "green tea"), ("category", .s "drink"), ("price", .q 40)],
   [("item_id", .s "a2"), ("store_id", .s "A"), ("platform", .s "ubereats"),
    ("name", .s "milk tea"), ("category", .s "drink"), ("price", .q 50)]]

/-- The document `find_drinks` produces for `itemUB` joined with `stUB`
under `envW` and `pPlain`. -/
def dDrinkW : Doc :=
  [("item_id", .s "m0"), ("name", .s "tea"), ("price", .q 30),
   ("category", .s "drink"), ("store_id", .s "s1"),
   ("platform", .s "ubereats"), ("store_name", .s "UB Store"),
   ("store_url", .s "ub-url"), ("brand_name", .s "UB")]

end CakeFair

/-! # Theorems -/

namespace CakeFair

/-! ## Dictionary and association-map lemmas -/

namespace Doc

theorem get_set_self (d : Doc) (k : String) (v : DVal) :
    (d.set k v).get k = some v := by
  induction d with
  | nil => simp [set, get]
  | cons p rest ih =>
      by_cases h : p.1 = k <;> simp [set, get, h, ih]

theorem get_set_ne (d : Doc) (k k1 : String) (v : DVal) (h : k1 ≠ k) :
    (d.set k v).get k1 = d.get k1 := by
  induction d with
  | nil => simp [set, get, Ne.symm h]
  | cons p rest ih =>
      by_cases hp : p.1 = k
      · simp [set, get, hp, Ne.symm h, h]
      · by_cases hk : p.1 = k1 <;> simp [set, get, hp, hk, ih, h]

theorem get_pop_ne (d : Doc) (k k1 : String) (h : k1 ≠ k) :
    (d.pop k).get k1 = d.get k1 := by
  induction d with
  | nil => simp [pop]
  | cons p rest ih =>
      by_cases hp : p.1 = k
      · have hne : ¬ p.1 = k1 := by rw [hp]; exact Ne.symm h
        simp [pop, get, hp, hne, Ne.symm h]
      · by_cases hk : p.1 = k1 <;> simp [pop, get, hp, hk, ih, h, Ne.symm h]

end Doc

theorem assocGet_set_self {κ α : Type} [DecidableEq κ]
    (l : List (κ × α)) (k : κ) (v : α) : assocGet (assocSet l k v) k = some v := by
  induction l with
  | nil => simp [assocSet, assocGet]
  | cons p rest ih =>
      by_cases h : p.1 = k <;> simp [assocSet, assocGet, h, ih]

theorem assocGet_set_ne {κ α : Type} [DecidableEq κ]
    (l : List (κ × α)) (k k1 : κ) (v : α) (h : k1 ≠ k) :
    assocGet (assocSet l k v) k1 = assocGet l k1 := by
  induction l with
  | nil => simp [assocSet, assocGet, Ne.symm h]
  | cons p rest ih =>
      by_cases hp : p.1 = k
      · simp [assocSet, assocGet, hp, Ne.symm h]
      · by_cases hk : p.1 = k1 <;> simp [assocSet, assocGet, hp, hk, ih, h]

theorem assocGet_eq_none {κ α : Type} [DecidableEq κ]
    {l : List (κ × α)} {k : κ} (h : assocGet l k = none) :
    ∀ p ∈ l, p.1 ≠ k := by
  induction l with
  | nil => simp
  | cons p rest ih =>
      by_cases hp : p.1 = k
      · simp [assocGet, hp] at h
      · intro q hq
        rcases List.mem_cons.mp hq with rfl | hq
        · exact hp
        · exact ih (by simpa [assocGet, hp] using h) q hq

theorem get_projectKeys_of_none (ks : List String) (d : Doc) (k : String)
    (h : d.get k = none) : (projectKeys ks d).get k = none := by
  induction ks with
  | nil => simp [projectKeys, Doc.get]
  | cons k1 rest ih =>
      by_cases hk : k1 = k
      · subst hk
        simpa [projectKeys, h] using ih
      · cases hv : d.get k1 with
        | none => simpa [projectKeys, hv] using ih
        | some v => simpa [projectKeys, Doc.get, hv, hk] using ih

theorem get_projectKeys_of_mem (ks : List String) (d : Doc) (k : String)
    (h : k ∈ ks) : (projectKeys ks d).get k = d.get k := by
  induction ks with
  | nil => cases h
  | cons k1 rest ih =>
      by_cases hk : k1 = k
      · subst hk
        cases hv : d.get k1 with
        | none => simpa [projectKeys, hv] using get_projectKeys_of_none rest d k1 hv
        | some v => simp [projectKeys, Doc.get, hv]
      · have hmem : k ∈ rest := by
          rcases List.mem_cons.mp h with h1 | h1
          · exact absurd h1.symm hk
          · exact h1
        cases hv : d.get k1 <;>
          simpa [projectKeys, Doc.get, hv, hk] using ih hmem

theorem sortDescBy_perm {α : Type} (key : α → ℚ) (l : List α) :
    List.Perm (sortDescBy key l) l :=
  List.perm_insertionSort _ l

theorem sortDescBy_sorted {α : Type} (key : α → ℚ) (l : List α) :
    (sortDescBy key l).Pairwise fun a b => key b ≤ key a := by
  haveI : IsTotal α fun a b => key b ≤ key a := ⟨fun a b => le_total (key b) (key a)⟩
  haveI : IsTrans α fun a b => key b ≤ key a :=
    ⟨fun _ _ _ h1 h2 => le_trans h2 h1⟩
  exact List.sorted_insertionSort _ l

/-! ## Claim C2: effective search radius -/

/-- C2: the claim states that a supplied `distance_range` has its upper
bound converted from meters to kilometers, so that
`distance_range = (0, 3000)` yields a 3.0 km radius.  Evaluating the
embedded code: with no range the radius is indeed 5 km, but with
`(0, 3000)` the radius handed to the geospatial filter is 3000 (no unit
conversion), so the `$geoNear` stage is built with
`maxDistance = 3000 * 1000` meters — a 3000 km radius, not 3.0 km. -/
theorem c2_radius_eval :
    effectiveRadiusKm none = 5 ∧
    effectiveRadiusKm (some (0, 3000)) = 3000 ∧
    (buildGeospatialFilter 121 25 (effectiveRadiusKm (some (0, 3000)))).maxDistance
      = 3000000 := by
  refine ⟨rfl, rfl, ?_⟩
  norm_num [buildGeospatialFilter, effectiveRadiusKm]

/-! ## Claim C5: phase-1 short circuit of `find_drinks` -/

/-- C5: if the phase-1 store query of `find_drinks` returns no store,
the result is `[]` and the only collection ever queried is `store`; in
particular no query is issued against `menu_item`. -/
theorem c5_find_drinks_short_circuit (env : MongoEnv) (p : QueryParams)
    (limit : Option ℕ) (storeColl menuColl : List Doc)
    (h : findQualifyingStores env p storeColl = []) :
    findDrinks env p limit storeColl menuColl = ([], ["store"]) ∧
    "menu_item" ∉ (findDrinks env p limit storeColl menuColl).2 := by
  constructor
  · simp [findDrinks, h]
  · simp [findDrinks, h]

/-- C5 witness: with an empty `store` collection phase 1 returns no
store, and `find_drinks` answers `([], ["store"])` without touching
`menu_item`. -/
theorem c5_witness :
    findDrinks envW pPlain none [] [itemUB] = ([], ["store"]) ∧
    "menu_item" ∉ (findDrinks envW pPlain none [] [itemUB]).2 :=
  c5_find_drinks_short_circuit envW pPlain none [] [itemUB] rfl

/-! ## Claim C7: `cleanup_all` -/

/-- C7: whenever every cached instance's name is registered (true of all
states the container can reach, since `get_instance` only caches
registered names), `cleanup_all` issues exactly one cleanup invocation
per cached instance — each with its own driver outcome, so one failing
cleanup cannot suppress another — returns normally instead of raising,
and leaves the local cache empty. -/
theorem c7_cleanup_all (s : Container.CState)
    (cleanup : String → ℕ → Except Unit Unit)
    (hreg : ∀ p ∈ s.instances, p.1 ∈ s.drivers) :
    Container.cleanupAll s cleanup =
      .ok { invocations := s.instances.map fun p => (p.1, p.2, cleanup p.1 p.2)
            instancesAfter := [] } := by
  have hf : s.instances.filter (fun p => p.1 ∈ s.drivers) = s.instances :=
    List.filter_eq_self.mpr fun a ha => by
      simpa using hreg a ha
  simp [Container.cleanupAll, hf]

/-- C7 witness: two cached instances, the first one's cleanup raising;
the failing cleanup is recorded, the succeeding one still runs, nothing
is raised, and the cache ends empty. -/
theorem c7_witness :
    Container.cleanupAll
        { drivers := ["a", "b"], instances := [("a", 1), ("b", 2)], appState := [] }
        (fun n _ => if n = "a" then .error () else .ok ()) =
      .ok { invocations := [("a", 1, .error ()), ("b", 2, .ok ())]
            instancesAfter := [] } := by
  have h := c7_cleanup_all
    { drivers := ["a", "b"], instances := [("a", 1), ("b", 2)], appState := [] }
    (fun n _ => if n = "a" then .error () else .ok ()) (by decide)
  simpa using h

/-! ## Claim C8: failed initialization is not cached and can be retried -/

/-- C8: for a registered name with no instance in the shared slot or the
local cache, a `get_instance` whose `driver.initialize` raises invokes
the driver (third component `true`), surfaces the error, and leaves the
container state completely unchanged; a subsequent call therefore runs
`initialize` again and, if it now succeeds, caches and returns the new
instance. -/
theorem c8_init_failure_not_cached (s : Container.CState) (name : String)
    (v : ℕ) (hreg : name ∈ s.drivers)
    (happ : Container.getFromAppState s.appState name = none)
    (hloc : assocGet s.instances name = none) :
    Container.getInstance s name (.error ()) = (.error .initFailed, s, true) ∧
    Container.getInstance s name (.ok v) =
      (.ok v,
       { s with instances := assocSet s.instances name v,
                appState := Container.storeToAppState s.appState name v },
       true) := by
  constructor <;> simp [Container.getInstance, hreg, happ, hloc]

/-- C8 witness: on a fresh container registering only "mongo", a failing
initialization returns the error with the state unchanged, and the
retry initializes and caches instance 7 locally and in `app.state`. -/
theorem c8_witness :
    Container.getInstance
        { drivers := ["mongo"], instances := [], appState := [] } "mongo"
        (.error ()) =
      (.error .initFailed,
       { drivers := ["mongo"], instances := [], appState := [] }, true) ∧
    Container.getInstance
        { drivers := ["mongo"], instances := [], appState := [] } "mongo"
        (.ok 7) =
      (.ok 7,
       { drivers := ["mongo"], instances := [("mongo", 7)],
         appState := [("mongo_driver", 7)] }, true) := by
  have h := c8_init_failure_not_cached
    { drivers := ["mongo"], instances := [], appState := [] } "mongo" 7
    (by decide) rfl rfl
  exact ⟨h.1, by simpa using h.2⟩

/-! ## Claim C10: the `app.state` fast path bypasses the local cache -/

/-- C10: when the shared `app.state` slot already holds an instance for
a registered name that is absent from the local cache, `get_instance`
returns that instance without invoking `initialize` and without touching
the container state, so the name stays out of the local cache; since
`cleanup_all` and `health_check_all` iterate only the local cache, no
cleanup invocation for that name is ever issued and the health map never
contains the name. -/
theorem c10_fast_path_not_cached (s : Container.CState) (name : String)
    (v : ℕ) (initResult : Except Unit ℕ)
    (cleanup : String → ℕ → Except Unit Unit)
    (hc : String → ℕ → Except Unit Bool)
    (hreg : name ∈ s.drivers)
    (happ : Container.getFromAppState s.appState name = some v)
    (hloc : assocGet s.instances name = none) :
    Container.getInstance s name initResult = (.ok v, s, false) ∧
    (∀ r, Container.cleanupAll s cleanup = .ok r →
      ∀ t ∈ r.invocations, t.1 ≠ name) ∧
    (∀ e ∈ Container.healthCheckAll s hc, e.1 ≠ name) := by
  refine ⟨by simp [Container.getInstance, hreg, happ], ?_, ?_⟩
  · intro r hr t ht
    simp only [Container.cleanupAll, Except.ok.injEq] at hr
    subst hr
    simp only [List.mem_map] at ht
    rcases ht with ⟨p, hp, rfl⟩
    exact assocGet_eq_none hloc p (List.mem_of_mem_filter hp)
  · intro e he
    simp only [Container.healthCheckAll, List.mem_filterMap] at he
    rcases he with ⟨p, hp, hif⟩
    by_cases hd : p.1 ∈ s.drivers
    · simp only [hd, if_true, Option.some.injEq] at hif
      have hne := assocGet_eq_none hloc p hp
      rw [← hif]
      exact hne
    · simp [hd] at hif

/-- C10 witness: instance 9 lives only in `app.state` (under the
`mongo_driver` slot name); `get_instance` returns it while the local
cache stays empty, cleanup issues no invocation for "mongo", and the
health map has no "mongo" entry. -/
theorem c10_witness :
    Container.getInstance
        { drivers := ["mongo"], instances := [],
          appState := [("mongo_driver", 9)] } "mongo" (.ok 7) =
      (.ok 9,
       { drivers := ["mongo"], instances := [],
         appState := [("mongo_driver", 9)] }, false) ∧
    (∀ r, Container.cleanupAll
        { drivers := ["mongo"], instances := [],
          appState := [("mongo_driver", 9)] } (fun _ _ => .ok ()) = .ok r →
      ∀ t ∈ r.invocations, t.1 ≠ "mongo") ∧
    (∀ e ∈ Container.healthCheckAll
        { drivers := ["mongo"], instances := [],
          appState := [("mongo_driver", 9)] } (fun _ _ => .ok true),
      e.1 ≠ "mongo") :=
  c10_fast_path_not_cached
    { drivers := ["mongo"], instances := [], appState := [("mongo_driver", 9)] }
    "mongo" 9 (.ok 7) (fun _ _ => .ok ()) (fun _ _ => .ok true)
    (by decide) rfl rfl

end CakeFair

namespace CakeFair

/-! ## Claim C9: the unconditional minimum-price filter -/

theorem priceOK_of_matchesPrice {d : Doc} (h : matchesPriceGte20 d = true) :
    ∃ q, d.get "price" = some (.q q) ∧ 20 ≤ q := by
  cases hv : d.get "price" with
  | none => simp [matchesPriceGte20, hv] at h
  | some v =>
      cases v with
      | q p => exact ⟨p, rfl, by simpa [matchesPriceGte20, hv] using h⟩
      | s x => simp [matchesPriceGte20, hv] at h
      | b x => simp [matchesPriceGte20, hv] at h
      | null => simp [matchesPriceGte20, hv] at h

theorem attachStore_get_price (st item : Doc) :
    (attachStore st item).get "price" = item.get "price" := by
  simp [attachStore, Doc.get_set_ne, Doc.get_pop_ne]

theorem projectDrinkItem_get_price (hasTags : Bool) (d : Doc) :
    (projectDrinkItem hasTags d).get "price" = d.get "price" := by
  cases hasTags <;> exact get_projectKeys_of_mem _ _ _ (by decide)

theorem set_text_score_get_price (d : Doc) (v : DVal) :
    (d.set "text_score" v).get "price" = d.get "price" :=
  Doc.get_set_ne d "text_score" "price" v (by decide)

theorem mem_joinDrinkItems {idx : List ((DVal × Option DVal) × Doc)}
    {l : List Doc} {d : Doc} (hd : d ∈ joinDrinkItems idx l) :
    ∃ item ∈ l, ∃ st, d = attachStore st item := by
  simp only [joinDrinkItems, List.mem_filterMap] at hd
  rcases hd with ⟨item, hitem, hjoin⟩
  cases hst : assocGet idx (item.getBang "store_id", item.get "platforms") with
  | none => rw [hst] at hjoin; cases hjoin
  | some st =>
      rw [hst] at hjoin
      by_cases hemp : st.isEmpty
      · simp [hemp] at hjoin
      · simp only [hemp, if_false] at hjoin
        exact ⟨item, hitem, st, (Option.some.injEq _ _ ▸ hjoin).symm⟩

/-- C9: every drink returned by `find_drinks` — with or without drink
tags — has a numeric price of at least 20, because the phase-2
`menu_item` pipeline always contains the `{"price": {"$gte": 20}}`
match stage and all later stages (store restriction, score annotation,
projection, sort, limit, join) preserve the `price` field. -/
theorem c9_price_floor (env : MongoEnv) (p : QueryParams) (limit : Option ℕ)
    (storeColl menuColl : List Doc) (d : Doc)
    (hd : d ∈ (findDrinks env p limit storeColl menuColl).1) :
    ∃ q, d.get "price" = some (.q q) ∧ 20 ≤ q := by
  have main : ∀ (stores : List Doc) (tags : List String),
      d ∈ findDrinksFromStores env stores tags limit menuColl →
      ∃ q, d.get "price" = some (.q q) ∧ 20 ≤ q := by
    intro stores tags hmem
    by_cases htags : tags.isEmpty
    · simp only [findDrinksFromStores, htags, Bool.not_true, if_false] at hmem
      rcases mem_joinDrinkItems hmem with ⟨item, hitem, st, rfl⟩
      rw [attachStore_get_price]
      have h1 : item ∈ ((menuColl.filter matchesPriceGte20).filter
          (matchesStoreIdOr (stores.map fun s => s.getBang "store_id"))).map
            (projectDrinkItem false) := by
        by_cases hlim : truthyNat limit
        · exact List.take_subset _ _ (by simpa only [hlim, if_true] using hitem)
        · simpa only [hlim, if_false] using hitem
      rcases List.mem_map.mp h1 with ⟨item0, hitem0, rfl⟩
      rw [projectDrinkItem_get_price]
      exact priceOK_of_matchesPrice
        (List.mem_filter.mp (List.mem_filter.mp hitem0).1).2
    · simp only [findDrinksFromStores, htags, Bool.not_false, if_true] at hmem
      replace hmem := (sortDescBy_perm textScoreKey _).mem_iff.mp hmem
      rcases mem_joinDrinkItems hmem with ⟨item, hitem, st, rfl⟩
      rw [attachStore_get_price]
      have h1 : item ∈ sortDescBy textScoreKey
          (((((menuColl.filter (matchesDrinkTags env tags)).filter
                matchesPriceGte20).filter
              (matchesStoreIdOr (stores.map fun s => s.getBang "store_id"))).map
            fun d0 => d0.set "text_score"
              (.q (env.textScore (String.intercalate " " tags) d0))).map
            (projectDrinkItem true)) := by
        by_cases hlim : truthyNat limit
        · exact List.take_subset _ _ (by simpa only [hlim, if_true] using hitem)
        · simpa only [hlim, if_false] using hitem
      replace h1 := (sortDescBy_perm textScoreKey _).mem_iff.mp h1
      rcases List.mem_map.mp h1 with ⟨item1, hitem1, rfl⟩
      rw [projectDrinkItem_get_price]
      rcases List.mem_map.mp hitem1 with ⟨item0, hitem0, rfl⟩
      rw [set_text_score_get_price]
      exact priceOK_of_matchesPrice
        (List.mem_filter.mp (List.mem_filter.mp hitem0).1).2
  unfold findDrinks at hd
  by_cases hs : (findQualifyingStores env p storeColl).isEmpty
  · simp [hs] at hd
  · simp only [hs, if_false] at hd
    exact main _ _ hd

/-- C9 witness: on the one-store, one-item database the returned joined
document exists and its price is 30 ≥ 20. -/
theorem c9_witness :
    dDrinkW ∈ (findDrinks envW pPlain none [stUB] [itemUB]).1 ∧
    ∃ q, dDrinkW.get "price" = some (.q q) ∧ 20 ≤ q := by
  have a1 : (5 : ℚ) * 1000 = 5000 := by norm_num
  have a3 : (0 : ℚ) / 1000 = 0 := by norm_num
  have a4 : round2 0 = 0 := by norm_num [round2, round_eq]
  have hmem : dDrinkW ∈ (findDrinks envW pPlain none [stUB] [itemUB]).1 := by
    simp +decide [findDrinks, findQualifyingStores, findDrinksFromStores,
      evalGeoNear, buildGeospatialFilter, effectiveRadiusKm, envW, pPlain, stUB,
      itemUB, matchesStoreFilters, matchesBrandOr, matchesDrinkTags,
      matchesPriceGte20, matchesStoreIdOr, projectQualifyingStore, projectKeys,
      distanceInKmEntry, Doc.get, Doc.getD, Doc.getBang, Doc.set, Doc.pop,
      truthyStr, truthyNat, projectDrinkItem, buildStoreIndex, assocSet,
      assocGet, joinDrinkItems, attachStore, sortDescBy, List.insertionSort,
      List.orderedInsert, dDrinkW, textScoreKey, a1, a3, a4]
  exact ⟨hmem, c9_price_floor envW pPlain none [stUB] [itemUB] dDrinkW hmem⟩

end CakeFair

namespace CakeFair

/-! ## Claim C4: the `(store_id, platform)` join of `find_drinks` -/

/-- C4: the claim states that a menu item whose `(store_id, platform)`
pair has no phase-1 store is dropped.  Evaluating the embedded code on a
store collection holding only the ubereats store `s1` and a menu
collection holding one item of the foodpanda store `s1`: the item is
returned anyway, carrying the ubereats store's display fields, because
the store index is keyed on the nonexistent `platforms` field (both
components `None`) instead of the schema's `platform` field, so the join
matches on `store_id` alone. -/
theorem c4_orphan_item_joined :
    (findDrinks envW pPlain none [stUB] [itemFP]).1.map
        (fun d => (d.get "item_id", d.get "store_name", d.get "brand_name")) =
      [(some (.s "m1"), some (.s "UB Store"), some (.s "UB"))] := by
  have a1 : (5 : ℚ) * 1000 = 5000 := by norm_num
  have a3 : (0 : ℚ) / 1000 = 0 := by norm_num
  have a4 : round2 0 = 0 := by norm_num [round2, round_eq]
  simp +decide [findDrinks, findQualifyingStores, findDrinksFromStores,
    evalGeoNear, buildGeospatialFilter, effectiveRadiusKm, envW, pPlain, stUB,
    itemFP, matchesStoreFilters, matchesBrandOr, matchesDrinkTags,
    matchesPriceGte20, matchesStoreIdOr, projectQualifyingStore, projectKeys,
    distanceInKmEntry, Doc.get, Doc.getD, Doc.getBang, Doc.set, Doc.pop,
    truthyStr, truthyNat, projectDrinkItem, buildStoreIndex, assocSet,
    assocGet, joinDrinkItems, attachStore, sortDescBy, List.insertionSort,
    List.orderedInsert, textScoreKey, a1, a3, a4]

/-! ## Claim C6: the phase-2 restriction of `find_drink_stores_with_menu` -/

/-- C6 counterexample: with one matching ubereats menu item of store
`s1` and two stores sharing `store_id` `s1` on different platforms, the
phase-2 pipeline admits both stores, while the phase-1 pair set contains
a single record (with no `platforms` component, since the menu schema
has no such field); no admitted store's `(store_id, platform)` pair is
in the collected pair set, refuting the claim as stated. -/
theorem c6_counterexample : ¬ c6ClaimHolds envW pTea [stUB, stFP] [itemUB] := by
  have a1 : (5 : ℚ) * 1000 = 5000 := by norm_num
  have hpairs : menuPairsPhase1 envW pTea.drink_tags pTea.platform [itemUB] =
      [[("store_id", .s "s1")]] := by
    simp +decide [menuPairsPhase1, matchesDrinkTags, envW, pTea, itemUB,
      truthyStr, Doc.get, Doc.getD, Doc.getBang, pairDoc, List.dedup]
  have hadm : storesPhase2Admitted envW pTea
      (menuPairsPhase1 envW pTea.drink_tags pTea.platform [itemUB])
      [stUB, stFP] =
      [stUB.set "distance_in_meter" (.q 0), stFP.set "distance_in_meter" (.q 0)] := by
    rw [hpairs]
    simp +decide [storesPhase2Admitted, evalGeoNear, buildGeospatialFilter,
      effectiveRadiusKm, envW, pTea, stUB, stFP, matchesStoreFilters,
      matchesBrandOr, matchesStoreIdOr, truthyStr, Doc.get, Doc.getD,
      Doc.getBang, List.insertionSort, List.orderedInsert, a1]
  intro h
  have h2 := h (stFP.set "distance_in_meter" (.q 0))
    (by rw [hadm]; simp)
  rw [hpairs] at h2
  obtain ⟨pr, hpr, hsid, hplat⟩ := h2
  have hpr2 : pr = [("store_id", DVal.s "s1")] := by simpa using hpr
  subst hpr2
  simp [Doc.get, Doc.set, stFP] at hplat

/-- C6 amended: the phase-2 store query admits a store only if its
`store_id` equals the `store_id` of one of the distinct
`(store_id, platforms)` records collected by the phase-1 `menu_item`
text-search query; the platform component of those records imposes no
further restriction on phase 2 (a platform argument is enforced
separately by the store attribute filter). -/
theorem c6_phase2_storeid_only (env : MongoEnv) (p : QueryParams)
    (storeColl menuColl : List Doc) (d : Doc)
    (hd : d ∈ storesPhase2Admitted env p
        (menuPairsPhase1 env p.drink_tags p.platform menuColl) storeColl) :
    ∃ pr ∈ menuPairsPhase1 env p.drink_tags p.platform menuColl,
      pr.getBang "store_id" = d.getBang "store_id" := by
  simp only [storesPhase2Admitted] at hd
  have hd3 : d ∈ ((evalGeoNear env
      (buildGeospatialFilter p.longitude p.latitude
        (effectiveRadiusKm p.distance_range)) storeColl).filter
          (matchesStoreFilters p.platform p.rating_range p.review_count_range)).filter
        (matchesStoreIdOr
          ((menuPairsPhase1 env p.drink_tags p.platform menuColl).map
            fun s => s.getBang "store_id")) := by
    by_cases hb : p.brands.isEmpty
    · simpa only [hb, if_true] using hd
    · exact List.mem_of_mem_filter (by simpa only [hb, if_false] using hd)
  have hmatch := (List.mem_filter.mp hd3).2
  simp only [matchesStoreIdOr, List.any_eq_true] at hmatch
  rcases hmatch with ⟨v, hv, hbeq⟩
  rcases List.mem_map.mp hv with ⟨pr, hpr, rfl⟩
  exact ⟨pr, hpr, (beq_iff_eq.mp hbeq).symm⟩

/-- C6 witness for the amended theorem: the admitted foodpanda store of
the counterexample scenario indeed has its `store_id` among the phase-1
records. -/
theorem c6_amended_witness :
    ∃ pr ∈ menuPairsPhase1 envW pTea.drink_tags pTea.platform [itemUB],
      pr.getBang "store_id" =
        (Doc.set stFP "distance_in_meter" (.q 0)).getBang "store_id" := by
  have a1 : (5 : ℚ) * 1000 = 5000 := by norm_num
  refine c6_phase2_storeid_only envW pTea [stUB, stFP] [itemUB]
    (Doc.set stFP "distance_in_meter" (.q 0)) ?_
  simp +decide [storesPhase2Admitted, menuPairsPhase1, matchesDrinkTags,
    evalGeoNear, buildGeospatialFilter, effectiveRadiusKm, envW, pTea, stUB,
    stFP, itemUB, matchesStoreFilters, matchesBrandOr, matchesStoreIdOr,
    truthyStr, Doc.get, Doc.getD, Doc.getBang, Doc.set, pairDoc, List.dedup,
    List.insertionSort, List.orderedInsert, a1]

end CakeFair

namespace CakeFair

/-! ## Claim C3: ranking of `find_drink_stores_with_menu` by hit count -/

theorem menuIndexInsert_get_self (idx : List (DVal × (List Doc × ℕ)))
    (j : DVal) (item : Doc) :
    assocGet (menuIndexInsert idx j item) j =
      some (match assocGet idx j with
            | none => ([item], 1)
            | some p => (p.1 ++ [item], p.2 + 1)) := by
  unfold menuIndexInsert
  cases h : assocGet idx j with
  | none => simp [assocGet_set_self]
  | some p => simp [assocGet_set_self]

theorem menuIndexInsert_get_ne (idx : List (DVal × (List Doc × ℕ)))
    (j : DVal) (item : Doc) (k : DVal) (h : k ≠ j) :
    assocGet (menuIndexInsert idx j item) k = assocGet idx k := by
  unfold menuIndexInsert
  cases hj : assocGet idx j with
  | none => exact assocGet_set_ne _ _ _ _ h
  | some p => exact assocGet_set_ne _ _ _ _ h

theorem buildMenuIndex_go (items : List Doc)
    (acc : List (DVal × (List Doc × ℕ))) (k : DVal) :
    assocGet (items.foldl
        (fun idx it => menuIndexInsert idx (it.getBang "store_id") it) acc) k =
      (match assocGet acc k,
          items.filter (fun it => it.getBang "store_id" == k) with
       | none, [] => none
       | none, l => some (l, l.length)
       | some p, l => some (p.1 ++ l, p.2 + l.length)) := by
  induction items generalizing acc with
  | nil =>
      simp only [List.foldl_nil, List.filter_nil]
      cases h : assocGet acc k with
      | none => simp
      | some p => simp
  | cons it rest ih =>
      simp only [List.foldl_cons]
      rw [ih]
      by_cases hk : it.getBang "store_id" = k
      · rw [hk, menuIndexInsert_get_self]
        have hf : (it :: rest).filter (fun x => x.getBang "store_id" == k) =
            it :: rest.filter (fun x => x.getBang "store_id" == k) := by
          simp [List.filter_cons, hk]
        rw [hf]
        cases h : assocGet acc k with
        | none =>
            cases hr : rest.filter (fun x => x.getBang "store_id" == k) with
            | nil => simp
            | cons y ys => simp [Nat.add_comm]
        | some p =>
            cases hr : rest.filter (fun x => x.getBang "store_id" == k) with
            | nil => simp
            | cons y ys =>
                simp only [List.length_cons, Option.some.injEq, Prod.mk.injEq]
                exact ⟨by simp, by omega⟩
      · rw [menuIndexInsert_get_ne _ _ _ _ (Ne.symm hk)]
        have hf : (it :: rest).filter (fun x => x.getBang "store_id" == k) =
            rest.filter (fun x => x.getBang "store_id" == k) := by
          simp [List.filter_cons, hk]
        rw [hf]

theorem buildMenuIndex_get (items : List Doc) (k : DVal) :
    assocGet (buildMenuIndex items) k =
      (match items.filter (fun it => it.getBang "store_id" == k) with
       | [] => none
       | l => some (l, l.length)) := by
  unfold buildMenuIndex
  rw [buildMenuIndex_go]
  cases h : items.filter (fun it => it.getBang "store_id" == k) with
  | nil => simp [assocGet]
  | cons y ys => simp [assocGet]

theorem buildMenuIndex_count (items : List Doc) (st : Doc) :
    ((assocGet (buildMenuIndex items) (st.getBang "store_id")).map
        Prod.snd).getD 0 = menuHitCount items st := by
  rw [buildMenuIndex_get]
  unfold menuHitCount
  cases h : items.filter (fun it => it.getBang "store_id" == st.getBang "store_id") with
  | nil => simp
  | cons y ys => simp

theorem sortDescBy_pairwise_of_key_eq {α : Type} (key : α → ℚ) (g : α → ℕ)
    (l : List α) (hkey : ∀ a ∈ l, key a = (g a : ℚ)) :
    (sortDescBy key l).Pairwise fun a b => g b ≤ g a := by
  refine List.Pairwise.imp_of_mem (fun {a b} ha hb hr => ?_) (sortDescBy_sorted key l)
  have ha2 := hkey a ((sortDescBy_perm key l).mem_iff.mp ha)
  have hb2 := hkey b ((sortDescBy_perm key l).mem_iff.mp hb)
  rw [ha2, hb2] at hr
  exact_mod_cast hr

theorem pairwise_strip_sortDescBy (l : List StoreMenuEntry) (items : List Doc)
    (hkey : ∀ e ∈ l, e.hit_count.getD 0 = menuHitCount items e.base) :
    ((sortDescBy (fun e : StoreMenuEntry => ((e.hit_count.getD 0 : ℕ) : ℚ)) l).map
        fun e => { e with hit_count := none }).Pairwise fun a b =>
      menuHitCount items b.base ≤ menuHitCount items a.base := by
  refine (List.pairwise_map).mpr ?_
  exact sortDescBy_pairwise_of_key_eq
    (fun e : StoreMenuEntry => ((e.hit_count.getD 0 : ℕ) : ℚ))
    (fun e => menuHitCount items e.base) l
    fun a ha => by
      show ((a.hit_count.getD 0 : ℕ) : ℚ) = ((menuHitCount items a.base : ℕ) : ℚ)
      rw [hkey a ha]

theorem joinMenuAttach_tags (stores items : List Doc) :
    ((joinMenuAttach stores items true).Pairwise fun a b =>
        menuHitCount items b.base ≤ menuHitCount items a.base) ∧
    ∀ e ∈ joinMenuAttach stores items true, e.hit_count = none := by
  have hmain : joinMenuAttach stores items true =
      (sortDescBy (fun e : StoreMenuEntry => ((e.hit_count.getD 0 : ℕ) : ℚ))
        (stores.map fun st =>
          { base := st
            menu := ((assocGet (buildMenuIndex items) (st.getBang "store_id")).map
              Prod.fst).getD []
            hit_count := some (((assocGet (buildMenuIndex items)
              (st.getBang "store_id")).map Prod.snd).getD 0) })).map
        (fun e => { e with hit_count := none }) := by
    simp [joinMenuAttach]
  rw [hmain]
  constructor
  · refine pairwise_strip_sortDescBy _ items ?_
    intro e he
    rcases List.mem_map.mp he with ⟨st, _, rfl⟩
    simpa using buildMenuIndex_count items st
  · intro e he
    rcases List.mem_map.mp he with ⟨e1, _, rfl⟩
    rfl

/-- C3: whenever `find_drink_stores_with_menu` is called with a
non-empty tag list, its result is non-increasingly ordered by the number
of menu items of the tag-filtered menu query that belong to each store
(matched by `store_id`), and every returned entry has had its transient
`hit_count` key removed. -/
theorem c3_ranking (env : MongoEnv) (p : QueryParams)
    (storeColl menuColl : List Doc) (h : p.drink_tags ≠ []) :
    ((findDrinkStoresWithMenu env p storeColl menuColl).Pairwise fun a b =>
        menuHitCount (joinMenuQueryItems env
            (storesPhase2Projected env p storeColl menuColl) p.drink_tags
            menuColl) b.base ≤
          menuHitCount (joinMenuQueryItems env
            (storesPhase2Projected env p storeColl menuColl) p.drink_tags
            menuColl) a.base) ∧
    ∀ e ∈ findDrinkStoresWithMenu env p storeColl menuColl,
      e.hit_count = none := by
  have hne : p.drink_tags.isEmpty = false := by simpa using h
  unfold findDrinkStoresWithMenu
  rw [hne]
  simp only [Bool.false_eq_true, if_false]
  unfold findStoresWithDrinkTags
  by_cases hp : (menuPairsPhase1 env p.drink_tags p.platform menuColl).isEmpty
  · simp [hp]
  · simp only [hp, Bool.false_eq_true, if_false]
    by_cases hs : (storesPhase2Projected env p storeColl menuColl).isEmpty
    · simp [hs]
    · simp only [hs, Bool.false_eq_true, if_false]
      unfold joinMenuData
      simp only [hs, if_false, hne, Bool.not_false]
      exact joinMenuAttach_tags _ _

/-- C3 witness: the spec's two-store scenario, with store B listed
before store A by the store query but A having two matching menu items
to B's one: the result is sorted non-increasingly by hit count and no
entry retains a hit count. -/
theorem c3_witness :
    (pTea.drink_tags ≠ []) ∧
    (((findDrinkStoresWithMenu envW pTea [stB, stA] menuRank).Pairwise
        fun a b =>
          menuHitCount (joinMenuQueryItems envW
              (storesPhase2Projected envW pTea [stB, stA] menuRank)
              pTea.drink_tags menuRank) b.base ≤
            menuHitCount (joinMenuQueryItems envW
              (storesPhase2Projected envW pTea [stB, stA] menuRank)
              pTea.drink_tags menuRank) a.base) ∧
      ∀ e ∈ findDrinkStoresWithMenu envW pTea [stB, stA] menuRank,
        e.hit_count = none) :=
  ⟨by decide, c3_ranking envW pTea [stB, stA] menuRank (by decide)⟩

end CakeFair

namespace CakeFair

/-! ## Claim C1: single-flight initialization under concurrency -/

theorem mem_of_getElem_opt {α : Type} {l : List α} {i : ℕ} {a : α}
    (h : l[i]? = some a) : a ∈ l := by
  have hi : i < l.length := by
    by_contra hc
    simp [List.getElem?_eq_none (Nat.le_of_not_lt hc)] at h
  rw [List.getElem?_eq_getElem hi, Option.some.injEq] at h
  rw [← h]
  exact List.getElem_mem hi

theorem length_filter_set {α : Type} (l : List α) (i : ℕ) (pc x : α)
    (p : α → Bool) (h : l[i]? = some pc) :
    ((l.set i x).filter p).length + (if p pc then 1 else 0)
      = (l.filter p).length + (if p x then 1 else 0) := by
  induction l generalizing i with
  | nil => simp at h
  | cons a rest ih =>
      cases i with
      | zero =>
          simp only [List.getElem?_cons_zero, Option.some.injEq] at h
          rw [← h]
          simp only [List.set_cons_zero, List.filter_cons]
          by_cases h1 : p a <;> by_cases h2 : p x <;> simp [h1, h2] <;> omega
      | succ j =>
          simp only [List.getElem?_cons_succ] at h
          simp only [List.set_cons_succ, List.filter_cons]
          by_cases ha : p a
          · simp only [ha, if_true, List.length_cons]
            have := ih j h
            omega
          · simp only [ha, if_false]
            exact ih j h

theorem filter_replicate_false {α : Type} (p : α → Bool) (n : ℕ) (a : α)
    (h : p a = false) : (List.replicate n a).filter p = [] := by
  induction n with
  | zero => rfl
  | succ m ih => simp [List.replicate_succ, List.filter_cons, h, ih]

theorem string_append_ne (a s : String) (h : s.length ≠ 0) : a ++ s ≠ a := by
  intro he
  have h2 := congrArg String.length he
  rw [String.length_append] at h2
  omega

theorem getFromAppState_nil (name : String) :
    Container.getFromAppState [] name = none := rfl

theorem getFromAppState_store (name : String) (v : ℕ) :
    Container.getFromAppState [(Container.storeAttr name, v)] name = some v := by
  by_cases hm : name = "mysql"
  · subst hm; rfl
  · unfold Container.getFromAppState Container.probeNames Container.storeAttr
    rw [if_neg hm]
    have h1 : ¬(name ++ "_driver" = name) :=
      string_append_ne name "_driver" (by decide)
    simp [List.findSome?, assocGet, h1]

namespace Container.Concurrent

theorem inv_probe_eq_cache {s : Sys} (h : Inv s) :
    Container.getFromAppState s.appState s.name = assocGet s.instances s.name := by
  rcases h.instApp with ⟨h1, h2⟩ | ⟨v, h1, h2⟩
  · rw [h1, h2]
    rfl
  · rw [h1, h2, getFromAppState_store]
    simp [assocGet]

theorem inv_set_done {s : Sys} {i : ℕ} {pc : PC} (h : Inv s) (v : ℕ)
    (htask : s.tasks[i]? = some pc) (hpc : PC.isInit pc = false)
    (hc : assocGet s.instances s.name = some v) :
    Inv { s with tasks := s.tasks.set i (PC.done v) } := by
  refine ⟨h.reg, h.instApp, ?_, ?_, h.lock_cache, h.count_eq⟩
  · intro w hw
    rcases List.mem_or_eq_of_mem_set hw with hold | heq
    · exact h.done_cached w hold
    · injection heq with hwv
      rw [hwv]
      exact hc
  · have hl := length_filter_set s.tasks i pc (PC.done v) PC.isInit htask
    rw [hpc] at hl
    have hl2 : ((s.tasks.set i (PC.done v)).filter PC.isInit).length + 0
        = (s.tasks.filter PC.isInit).length + 0 := hl
    have h2 := h.lock_count
    show ((s.tasks.set i (PC.done v)).filter PC.isInit).length =
      if s.lock then 1 else 0
    omega

theorem inv_step (s : Sys) (i : ℕ) (h : Inv s) : Inv (stepTask s i) := by
  cases htask : s.tasks[i]? with
  | none => simpa [stepTask, htask] using h
  | some pc =>
    cases pc with
    | done v => simpa [stepTask, htask] using h
    | start =>
        have hstep : stepTask s i =
            (match Container.getFromAppState s.appState s.name with
             | some v => { s with tasks := s.tasks.set i (PC.done v) }
             | none =>
               match assocGet s.instances s.name with
               | some v => { s with tasks := s.tasks.set i (PC.done v) }
               | none => { s with tasks := s.tasks.set i PC.waiting }) := by
          simp only [stepTask, htask]
          rw [if_pos h.reg]
        rw [hstep, inv_probe_eq_cache h]
        cases hc : assocGet s.instances s.name with
        | some v => exact inv_set_done h v htask rfl hc
        | none =>
            refine ⟨h.reg, h.instApp, ?_, ?_, h.lock_cache, h.count_eq⟩
            · intro w hw
              rcases List.mem_or_eq_of_mem_set hw with hold | heq
              · exact h.done_cached w hold
              · cases heq
            · have hl := length_filter_set s.tasks i PC.start PC.waiting
                PC.isInit htask
              have hl2 : ((s.tasks.set i PC.waiting).filter PC.isInit).length + 0
                  = (s.tasks.filter PC.isInit).length + 0 := hl
              have h2 := h.lock_count
              show ((s.tasks.set i PC.waiting).filter PC.isInit).length =
                if s.lock then 1 else 0
              omega
    | waiting =>
        by_cases hlock : s.lock
        · have hstep : stepTask s i = s := by
            simp [stepTask, htask, hlock]
          rw [hstep]
          exact h
        · have hstep : stepTask s i =
              (match Container.getFromAppState s.appState s.name with
               | some v => { s with tasks := s.tasks.set i (PC.done v) }
               | none =>
                 match assocGet s.instances s.name with
                 | some v => { s with tasks := s.tasks.set i (PC.done v) }
                 | none =>
                     { s with lock := true,
                              initCount := s.initCount + 1,
                              freshCnt := s.freshCnt + 1,
                              tasks := s.tasks.set i (PC.initializing s.freshCnt) }) := by
            simp only [stepTask, htask]
            rw [if_neg hlock]
          rw [hstep, inv_probe_eq_cache h]
          cases hc : assocGet s.instances s.name with
          | some v => exact inv_set_done h v htask rfl hc
          | none =>
              have hlockf : s.lock = false := by
                cases hb : s.lock
                · rfl
                · exact absurd hb hlock
              refine ⟨h.reg, h.instApp, ?_, ?_, ?_, ?_⟩
              · intro w hw
                rcases List.mem_or_eq_of_mem_set hw with hold | heq
                · have hcO : cacheOf s = none := hc
                  have hdc := h.done_cached w hold
                  rw [hcO] at hdc
                  cases hdc
                · cases heq
              · have hl := length_filter_set s.tasks i PC.waiting
                  (PC.initializing s.freshCnt) PC.isInit htask
                have hl2 : ((s.tasks.set i
                      (PC.initializing s.freshCnt)).filter PC.isInit).length + 0
                    = (s.tasks.filter PC.isInit).length + 1 := hl
                have h2 := h.lock_count
                rw [hlockf] at h2
                simp only [Bool.false_eq_true, if_false] at h2
                show ((s.tasks.set i (PC.initializing s.freshCnt)).filter
                  PC.isInit).length = if true then 1 else 0
                simp only [if_true]
                omega
              · intro _
                exact hc
              · have hcO : cacheOf s = none := hc
                have h2 := h.count_eq
                rw [hlockf, hcO] at h2
                simp at h2
                show s.initCount + 1 =
                  (if true then 1 else 0) + (if (assocGet s.instances s.name).isSome then 1 else 0)
                rw [hc]
                simp [h2]
    | initializing v =>
        have hstep : stepTask s i =
            { s with instances := assocSet s.instances s.name v,
                     appState := Container.storeToAppState s.appState s.name v,
                     lock := false,
                     tasks := s.tasks.set i (PC.done v) } := by
          simp only [stepTask, htask]
        have hmem : PC.initializing v ∈ s.tasks := mem_of_getElem_opt htask
        have hlock : s.lock = true := by
          cases hb : s.lock
          · exfalso
            have h2 := h.lock_count
            rw [hb] at h2
            simp only [Bool.false_eq_true, if_false] at h2
            have : PC.initializing v ∈ s.tasks.filter PC.isInit :=
              List.mem_filter.mpr ⟨hmem, rfl⟩
            rw [List.length_eq_zero] at h2
            rw [h2] at this
            cases this
          · rfl
        have hc : cacheOf s = none := h.lock_cache hlock
        have hinst : s.instances = [] ∧ s.appState = [] := by
          rcases h.instApp with h1 | ⟨w, h1, h2⟩
          · exact h1
          · exfalso
            have hw : cacheOf s = some w := by
              unfold cacheOf
              rw [h1]
              simp [assocGet]
            rw [hc] at hw
            cases hw
        rw [hstep]
        have hcache2 : assocGet (assocSet s.instances s.name v) s.name = some v :=
          assocGet_set_self _ _ _
        refine ⟨h.reg, ?_, ?_, ?_, ?_, ?_⟩
        · refine Or.inr ⟨v, ?_, ?_⟩
          · rw [hinst.1]
            rfl
          · rw [hinst.2]
            rfl
        · intro w hw
          rcases List.mem_or_eq_of_mem_set hw with hold | heq
          · exfalso
            have hdc := h.done_cached w hold
            rw [hc] at hdc
            cases hdc
          · injection heq with hwv
            rw [hwv]
            exact hcache2
        · have hl := length_filter_set s.tasks i (PC.initializing v)
            (PC.done v) PC.isInit htask
          have hl2 : ((s.tasks.set i (PC.done v)).filter PC.isInit).length + 1
              = (s.tasks.filter PC.isInit).length + 0 := hl
          have h2 := h.lock_count
          rw [hlock] at h2
          simp at h2
          show ((s.tasks.set i (PC.done v)).filter PC.isInit).length =
            if false then 1 else 0
          simp only [Bool.false_eq_true, if_false]
          omega
        · intro hcontra
          cases hcontra
        · have h2 := h.count_eq
          rw [hlock, hc] at h2
          simp at h2
          show s.initCount =
            (if false then 1 else 0) +
              (if (assocGet (assocSet s.instances s.name v) s.name).isSome then 1 else 0)
          rw [hcache2]
          simp [h2]

theorem run_inv (sched : List ℕ) (s : Sys) (h : Inv s) : Inv (run s sched) := by
  induction sched generalizing s with
  | nil => exact h
  | cons i rest ih => exact ih _ (inv_step s i h)

theorem stepTask_tasks_length (s : Sys) (i : ℕ) :
    (stepTask s i).tasks.length = s.tasks.length := by
  unfold stepTask
  cases htask : s.tasks[i]? with
  | none => rfl
  | some pc =>
      cases pc with
      | done v => rfl
      | start =>
          by_cases hreg : s.name ∈ s.drivers
          · rw [if_pos hreg]
            cases Container.getFromAppState s.appState s.name with
            | some v => simp
            | none =>
                cases assocGet s.instances s.name with
                | some v => simp
                | none => simp
          · rw [if_neg hreg]
      | waiting =>
          by_cases hlock : s.lock
          · simp [hlock]
          · rw [if_neg hlock]
            cases Container.getFromAppState s.appState s.name with
            | some v => simp
            | none =>
                cases assocGet s.instances s.name with
                | some v => simp
                | none => simp
      | initializing v => simp

theorem run_tasks_length (sched : List ℕ) (s : Sys) :
    (run s sched).tasks.length = s.tasks.length := by
  induction sched generalizing s with
  | nil => rfl
  | cons i rest ih => rw [run, ih, stepTask_tasks_length]

theorem inv_init (name : String) (drivers : List String) (n : ℕ)
    (hreg : name ∈ drivers) : Inv (init name drivers n) := by
  refine ⟨hreg, Or.inl ⟨rfl, rfl⟩, ?_, ?_, ?_, ?_⟩
  · intro v hv
    have := List.eq_of_mem_replicate hv
    cases this
  · show ((List.replicate n PC.start).filter PC.isInit).length =
      if false then 1 else 0
    rw [filter_replicate_false _ _ _ rfl]
    simp
  · intro hcontra
    cases hcontra
  · show (0 : ℕ) = (if false then 1 else 0) +
      (if (assocGet ([] : List (String × ℕ)) name).isSome then 1 else 0)
    simp [assocGet]

/-- C1: for every number N ≥ 1 of concurrent `get_instance(name)` calls
for the same registered name starting before any initialization of that
name completes (empty local cache and shared slot, lock free), and for
every cooperative schedule that runs all N callers to completion, the
driver's `initialize` is invoked exactly once and all N calls return the
same instance reference. -/
theorem c1_single_flight (name : String) (drivers : List String) (n : ℕ)
    (sched : List ℕ) (hreg : name ∈ drivers) (hn : 1 ≤ n)
    (hdone : ∀ pc ∈ (run (init name drivers n) sched).tasks,
      ∃ v, pc = PC.done v) :
    (run (init name drivers n) sched).initCount = 1 ∧
    ∃ v, ∀ pc ∈ (run (init name drivers n) sched).tasks, pc = PC.done v := by
  have hinv := run_inv sched _ (inv_init name drivers n hreg)
  have hlen : (run (init name drivers n) sched).tasks.length = n := by
    rw [run_tasks_length]
    exact List.length_replicate ..
  have hne : (run (init name drivers n) sched).tasks ≠ [] := by
    apply List.ne_nil_of_length_pos
    omega
  obtain ⟨pc0, hpc0⟩ := List.exists_mem_of_ne_nil _ hne
  obtain ⟨v0, hv0⟩ := hdone pc0 hpc0
  rw [hv0] at hpc0
  have hcache := hinv.done_cached v0 hpc0
  have hfilter : (run (init name drivers n) sched).tasks.filter PC.isInit = [] := by
    rw [List.filter_eq_nil_iff]
    intro pc hpc
    obtain ⟨w, hw⟩ := hdone pc hpc
    rw [hw]
    simp [PC.isInit]
  have hlock : (run (init name drivers n) sched).lock = false := by
    have h2 := hinv.lock_count
    rw [hfilter] at h2
    cases hb : (run (init name drivers n) sched).lock
    · rfl
    · rw [hb] at h2
      simp at h2
  constructor
  · have h2 := hinv.count_eq
    rw [hlock, hcache] at h2
    simpa using h2
  · refine ⟨v0, fun pc hpc => ?_⟩
    obtain ⟨w, hw⟩ := hdone pc hpc
    subst hw
    have hw2 := hinv.done_cached w hpc
    rw [hcache] at hw2
    injection hw2 with hww
    rw [hww]

end Container.Concurrent

/-- C1 witness: two callers racing on a fresh container registering only
"mongo", under the schedule where both pass their fast paths before the
first initializes: `initialize` runs once and both callers finish with
the same instance 0. -/
theorem c1_witness :
    (Container.Concurrent.run
        (Container.Concurrent.init "mongo" ["mongo"] 2) [0, 1, 0, 0, 1]).initCount
      = 1 ∧
    ∃ v, ∀ pc ∈ (Container.Concurrent.run
        (Container.Concurrent.init "mongo" ["mongo"] 2) [0, 1, 0, 0, 1]).tasks,
      pc = Container.Concurrent.PC.done v :=
  Container.Concurrent.c1_single_flight "mongo" ["mongo"] 2 [0, 1, 0, 0, 1]
    (by decide) (by decide)
    (by
      intro pc hpc
      have hrun : (Container.Concurrent.run
          (Container.Concurrent.init "mongo" ["mongo"] 2) [0, 1, 0, 0, 1]).tasks
          = [Container.Concurrent.PC.done 0, Container.Concurrent.PC.done 0] := by
        decide
      rw [hrun] at hpc
      simp only [List.mem_cons, List.mem_singleton, List.not_mem_nil, or_false] at hpc
      rcases hpc with h | h <;> exact ⟨0, h⟩)

end CakeFair
